import Mathlib

/-!
Shallow embedding of the software-timer / time-base core of
`src/Source/UpDrive/bsp_systimer.c`.

Modelling conventions:
  * `uint32_t` counters that only ever move between 0 and their start value
    are embedded as `Nat`; where C modular arithmetic could matter
    (`bsp_DelayUS`) the reduction `% 2^32` is written out explicitly.
  * `int32_t g_iRunTime` is embedded as `Int`; the code wraps it to 0 by an
    explicit comparison with `0x7FFFFFFF` before the storage can overflow.
  * The timer bank `s_tTmr[TMR_COUNT]` is a `List SOFT_TMR`; the C bound
    check `_id >= TMR_COUNT` becomes a check against the list's length.
  * `while(1);` on a contract violation (halt awaiting the watchdog) is
    modelled by `Option`: `none` means the call never returns and no slot
    is modified.
  * The `SysTick` interrupt's outbound hooks (`bsp_RunPer1ms`,
    `bsp_RunPer10ms`, `TPCRemarks`) are external collaborators; the ISR
    embedding emits a trace recording, for each hook, the core state the
    hook observes at its call site.
-/

/-- Timer mode: `TMR_ONCE_MODE` (one-shot) or `TMR_AUTO_MODE` (auto-reload). -/
inductive TMR_MODE where
  | TMR_ONCE_MODE : TMR_MODE
  | TMR_AUTO_MODE : TMR_MODE
deriving DecidableEq, Repr

export TMR_MODE (TMR_ONCE_MODE TMR_AUTO_MODE)

/-- One software timer slot (`SOFT_TMR` of the C source): `Count` is the
remaining-tick counter, `PreLoad` the auto-reload value, `Flag` the
"expired, not yet consumed" latch, `Mode` the work mode. -/
structure SOFT_TMR where
  Count : Nat
  PreLoad : Nat
  Flag : Bool
  Mode : TMR_MODE
deriving DecidableEq, Repr

/-- The timer bank `s_tTmr`; its length plays the role of `TMR_COUNT`. -/
abbrev Bank : Type := List SOFT_TMR

/-- The zeroed slot `SysTickTimer_Init` writes into every entry. -/
def initSlot : SOFT_TMR := ⟨0, 0, false, TMR_ONCE_MODE⟩

/-- `SysTickTimer_Init`: clears all `TMR_COUNT` software timers
(`Count = PreLoad = 0`, `Flag = 0`, `Mode = TMR_ONCE_MODE`). -/
def SysTickTimer_Init (tmrCount : Nat) : Bank := List.replicate tmrCount initSlot

/-- Read slot `id` of a bank (the C array access `s_tTmr[_id]`, always
performed after the `_id >= TMR_COUNT` guard; out of range we return the
zero slot, a case no guarded access reaches). -/
def slotOf : Nat → Bank → SOFT_TMR
  | _, [] => initSlot
  | 0, t :: _ => t
  | n + 1, _ :: rest => slotOf n rest

/-- `bsp_SoftTimerDec`: one 1 ms step on a slot.  If `Count > 0` it is
decremented; on reaching 0 the `Flag` latch is set, and in
`TMR_AUTO_MODE` the counter is at once reloaded from `PreLoad`. -/
def bsp_SoftTimerDec (t : SOFT_TMR) : SOFT_TMR :=
  if t.Count > 0 then
    let t1 : SOFT_TMR := { t with Count := t.Count - 1 }
    if t1.Count = 0 then
      let t2 : SOFT_TMR := { t1 with Flag := true }
      if t2.Mode = TMR_AUTO_MODE then { t2 with Count := t2.PreLoad } else t2
    else t1
  else t

/-- The per-tick sweep of `SysTick_ISR` over the bank: `bsp_SoftTimerDec`
applied to every slot. -/
def bankDec (b : Bank) : Bank := b.map bsp_SoftTimerDec

/-- `bsp_StartTimer`: arm slot `_id` one-shot with period `_period`
(`Count = PreLoad = _period`, `Flag = 0`, `Mode = TMR_ONCE_MODE`).
`_id >= TMR_COUNT` is `while(1);` — modelled as `none`. -/
def bsp_StartTimer (id period : Nat) (b : Bank) : Option Bank :=
  if b.length ≤ id then none
  else some (b.set id ⟨period, period, false, TMR_ONCE_MODE⟩)

/-- `bsp_StartAutoTimer`: arm slot `_id` auto-reload with period `_period`
(`Count = PreLoad = _period`, `Flag = 0`, `Mode = TMR_AUTO_MODE`).
`_id >= TMR_COUNT` is `while(1);` — modelled as `none`. -/
def bsp_StartAutoTimer (id period : Nat) (b : Bank) : Option Bank :=
  if b.length ≤ id then none
  else some (b.set id ⟨period, period, false, TMR_AUTO_MODE⟩)

/-- `bsp_StopTimer`: disarm slot `_id` (`Count = 0`, `Flag = 0`,
`Mode = TMR_ONCE_MODE`; `PreLoad` is left as it was).
`_id >= TMR_COUNT` is `while(1);` — modelled as `none`. -/
def bsp_StopTimer (id : Nat) (b : Bank) : Option Bank :=
  if b.length ≤ id then none
  else
    some (b.set id { slotOf id b with Count := 0, Flag := false, Mode := TMR_ONCE_MODE })

/-- `bsp_CheckTimer`: consuming expiry query.  Out-of-range `_id` returns 0
("not expired") and touches nothing; otherwise, a set `Flag` is cleared and
1 is returned, an unset `Flag` returns 0. -/
def bsp_CheckTimer (id : Nat) (b : Bank) : Bool × Bank :=
  if b.length ≤ id then (false, b)
  else if (slotOf id b).Flag then
    (true, b.set id { slotOf id b with Flag := false })
  else (false, b)

/-- One round of the driving scenario of the spec's testable properties:
a simulated tick (`bankDec`, the ISR's sweep) followed by a
`bsp_CheckTimer id` query.  Returns the query's result and the bank after
both. -/
def tickCheck (id : Nat) (b : Bank) : Bool × Bank :=
  bsp_CheckTimer id (bankDec b)

/-- Bank state after `k` tick-then-check rounds on slot `id`. -/
def runState (id : Nat) (b : Bank) : Nat → Bank
  | 0 => b
  | k + 1 => (tickCheck id (runState id b k)).2

/-- Result of the `bsp_CheckTimer id` query right after the `j`-th simulated
tick (`j ≥ 1`) when a query is made after every tick. -/
def runResult (id : Nat) (b : Bank) (j : Nat) : Bool :=
  (tickCheck id (runState id b (j - 1))).1

/- ---------------------------------------------------------------------
Slot-level image of the tick-then-check round.  Slots are independent:
`bankDec` maps `bsp_SoftTimerDec` over the bank and `bsp_CheckTimer`
touches only slot `id`, so the run projects to a one-slot automaton.
--------------------------------------------------------------------- -/

/-- One tick-then-check round seen from a single slot. -/
def slotTick (t : SOFT_TMR) : Bool × SOFT_TMR :=
  let t1 := bsp_SoftTimerDec t
  if t1.Flag then (true, { t1 with Flag := false }) else (false, t1)

/-- Slot state after `k` tick-then-check rounds. -/
def slotRun (t : SOFT_TMR) : Nat → SOFT_TMR
  | 0 => t
  | k + 1 => (slotTick (slotRun t k)).2

lemma length_bankDec (b : Bank) : (bankDec b).length = b.length :=
  List.length_map _ _

lemma slotOf_map (f : SOFT_TMR → SOFT_TMR) :
    ∀ (b : Bank) (id : Nat), id < b.length → slotOf id (b.map f) = f (slotOf id b)
  | [], _, h => absurd h (by simp)
  | _ :: _, 0, _ => rfl
  | _ :: rest, n + 1, h =>
    slotOf_map f rest n (by simpa using Nat.lt_of_succ_lt_succ h)

lemma slotOf_set_self :
    ∀ (b : Bank) (id : Nat) (t : SOFT_TMR), id < b.length →
      slotOf id (b.set id t) = t
  | [], _, _, h => absurd h (by simp)
  | _ :: _, 0, _, _ => rfl
  | _ :: rest, n + 1, t, h =>
    slotOf_set_self rest n t (by simpa using Nat.lt_of_succ_lt_succ h)

lemma slotOf_bankDec (b : Bank) (id : Nat) (h : id < b.length) :
    slotOf id (bankDec b) = bsp_SoftTimerDec (slotOf id b) :=
  slotOf_map bsp_SoftTimerDec b id h

lemma checkTimer_fst (id : Nat) (b : Bank) (h : id < b.length) :
    (bsp_CheckTimer id b).1 = (slotOf id b).Flag := by
  unfold bsp_CheckTimer
  rw [if_neg (by omega)]
  by_cases hf : (slotOf id b).Flag <;> simp [hf]

lemma checkTimer_snd_length (id : Nat) (b : Bank) :
    (bsp_CheckTimer id b).2.length = b.length := by
  unfold bsp_CheckTimer
  split
  · rfl
  · split <;> simp

lemma checkTimer_snd_slot (id : Nat) (b : Bank) (h : id < b.length) :
    slotOf id (bsp_CheckTimer id b).2 =
      (if (slotOf id b).Flag then { slotOf id b with Flag := false }
       else slotOf id b) := by
  unfold bsp_CheckTimer
  rw [if_neg (by omega)]
  by_cases hf : (slotOf id b).Flag
  · simp only [hf, if_true]
    exact slotOf_set_self b id _ h
  · simp [hf]

lemma tickCheck_fst (id : Nat) (b : Bank) (h : id < b.length) :
    (tickCheck id b).1 = (slotTick (slotOf id b)).1 := by
  unfold tickCheck slotTick
  rw [checkTimer_fst id (bankDec b) (by rw [length_bankDec]; exact h),
      slotOf_bankDec b id h]
  by_cases hf : (bsp_SoftTimerDec (slotOf id b)).Flag <;> simp [hf]

lemma tickCheck_snd_length (id : Nat) (b : Bank) :
    (tickCheck id b).2.length = b.length := by
  unfold tickCheck
  rw [checkTimer_snd_length, length_bankDec]

lemma tickCheck_snd_slot (id : Nat) (b : Bank) (h : id < b.length) :
    slotOf id (tickCheck id b).2 = (slotTick (slotOf id b)).2 := by
  unfold tickCheck slotTick
  rw [checkTimer_snd_slot id (bankDec b) (by rw [length_bankDec]; exact h),
      slotOf_bankDec b id h]
  by_cases hf : (bsp_SoftTimerDec (slotOf id b)).Flag <;> simp [hf]

lemma runState_length (id : Nat) (b : Bank) :
    ∀ k, (runState id b k).length = b.length
  | 0 => rfl
  | k + 1 => by
    show (tickCheck id (runState id b k)).2.length = b.length
    rw [tickCheck_snd_length, runState_length id b k]

lemma runState_slot (id : Nat) (b : Bank) (h : id < b.length) :
    ∀ k, slotOf id (runState id b k) = slotRun (slotOf id b) k
  | 0 => rfl
  | k + 1 => by
    show slotOf id (tickCheck id (runState id b k)).2 = (slotTick (slotRun (slotOf id b) k)).2
    rw [tickCheck_snd_slot id _ (by rw [runState_length]; exact h),
        runState_slot id b h k]

lemma runResult_slot (id : Nat) (b : Bank) (h : id < b.length) (j : Nat) :
    runResult id b j = (slotTick (slotRun (slotOf id b) (j - 1))).1 := by
  unfold runResult
  rw [tickCheck_fst id _ (by rw [runState_length]; exact h),
      runState_slot id b h]

/- ---------------------------------------------------------------------
Closed forms of the one-slot automaton.
--------------------------------------------------------------------- -/

lemma slotTick_once (c p : Nat) :
    slotTick ⟨c, p, false, TMR_ONCE_MODE⟩ =
      (decide (c = 1), ⟨c - 1, p, false, TMR_ONCE_MODE⟩) := by
  unfold slotTick bsp_SoftTimerDec
  rcases Nat.lt_or_ge c 2 with hc | hc
  · interval_cases c <;> simp
  · have h0 : c > 0 := by omega
    have h1 : ¬(c - 1 = 0) := by omega
    have h2 : ¬(c = 1) := by omega
    simp [h0, h1, h2]

lemma slotTick_auto (c p : Nat) (hc : 0 < c) :
    slotTick ⟨c, p, false, TMR_AUTO_MODE⟩ =
      (decide (c = 1), ⟨if c = 1 then p else c - 1, p, false, TMR_AUTO_MODE⟩) := by
  unfold slotTick bsp_SoftTimerDec
  rcases Nat.lt_or_ge c 2 with h2 | h2
  · have : c = 1 := by omega
    subst this
    simp
  · have h1 : ¬(c - 1 = 0) := by omega
    have hne : ¬(c = 1) := by omega
    simp [hc, h1, hne]

lemma slotTick_inert (t : SOFT_TMR) (h0 : t.Count = 0) (hf : t.Flag = false) :
    slotTick t = (false, t) := by
  unfold slotTick bsp_SoftTimerDec
  simp [h0, hf]

lemma slotRun_inert (t : SOFT_TMR) (h0 : t.Count = 0) (hf : t.Flag = false) :
    ∀ k, slotRun t k = t
  | 0 => rfl
  | k + 1 => by
    show (slotTick (slotRun t k)).2 = t
    rw [slotRun_inert t h0 hf k, slotTick_inert t h0 hf]

lemma slotRun_once (p : Nat) :
    ∀ k, slotRun ⟨p, p, false, TMR_ONCE_MODE⟩ k = ⟨p - k, p, false, TMR_ONCE_MODE⟩
  | 0 => by simp [slotRun]
  | k + 1 => by
    show (slotTick (slotRun ⟨p, p, false, TMR_ONCE_MODE⟩ k)).2 = _
    rw [slotRun_once p k, slotTick_once]
    have : p - k - 1 = p - (k + 1) := by omega
    simp [this]

lemma slotRun_auto (p : Nat) (hp : 0 < p) :
    ∀ k, slotRun ⟨p, p, false, TMR_AUTO_MODE⟩ k =
      ⟨p - k % p, p, false, TMR_AUTO_MODE⟩
  | 0 => by simp [slotRun, Nat.mod_eq_of_lt hp]
  | k + 1 => by
    show (slotTick (slotRun ⟨p, p, false, TMR_AUTO_MODE⟩ k)).2 = _
    rw [slotRun_auto p hp k,
        slotTick_auto _ p (by have := Nat.mod_lt k hp; omega)]
    have hsucc : (k % p + 1) % p = (k + 1) % p := Nat.mod_add_mod k p 1
    rcases Nat.lt_or_ge (k % p) (p - 1) with h | h
    · have hne : ¬(p - k % p = 1) := by omega
      have : (k + 1) % p = k % p + 1 := by
        rw [← hsucc]; exact Nat.mod_eq_of_lt (by omega)
      simp [hne, this]
      omega
    · have heq : k % p = p - 1 := by have := Nat.mod_lt k hp; omega
      have h1 : p - k % p = 1 := by omega
      have : (k + 1) % p = 0 := by
        rw [← hsucc, heq]
        have : p - 1 + 1 = p := by omega
        simp [this]
      simp [h1, this]

/-- Facts about a run on a bank whose slot `id` was just overwritten with
`t`: the bank run projects to the one-slot automaton started at `t`. -/
lemma armed_run (b : Bank) (id : Nat) (t : SOFT_TMR) (h : id < b.length) :
    (∀ k, slotOf id (runState id (b.set id t) k) = slotRun t k)
  ∧ (∀ j, runResult id (b.set id t) j = (slotTick (slotRun t (j - 1))).1) := by
  have hl : (b.set id t).length = b.length := List.length_set b id t
  constructor
  · intro k
    rw [runState_slot id _ (by omega), slotOf_set_self b id t h]
  · intro j
    rw [runResult_slot id _ (by omega), slotOf_set_self b id t h]

/- ---------------------------------------------------------------------
Helpers to destruct a successful arm / stop call.
--------------------------------------------------------------------- -/

lemma startTimer_some (id p : Nat) (b b0 : Bank)
    (h : bsp_StartTimer id p b = some b0) :
    id < b.length ∧ b0 = b.set id ⟨p, p, false, TMR_ONCE_MODE⟩ := by
  unfold bsp_StartTimer at h
  split at h
  · exact absurd h (by simp)
  · exact ⟨by omega, (Option.some.injEq _ _ ▸ h).symm⟩

lemma startAutoTimer_some (id p : Nat) (b b0 : Bank)
    (h : bsp_StartAutoTimer id p b = some b0) :
    id < b.length ∧ b0 = b.set id ⟨p, p, false, TMR_AUTO_MODE⟩ := by
  unfold bsp_StartAutoTimer at h
  split at h
  · exact absurd h (by simp)
  · exact ⟨by omega, (Option.some.injEq _ _ ▸ h).symm⟩

lemma stopTimer_some (id : Nat) (b b0 : Bank)
    (h : bsp_StopTimer id b = some b0) :
    id < b.length ∧
      b0 = b.set id { slotOf id b with Count := 0, Flag := false, Mode := TMR_ONCE_MODE } := by
  unfold bsp_StopTimer at h
  split at h
  · exact absurd h (by simp)
  · exact ⟨by omega, (Option.some.injEq _ _ ▸ h).symm⟩

/-- C1.  One-shot expiry: after `bsp_StartTimer id p` (`p > 0`), querying
`bsp_CheckTimer id` after every simulated tick yields `false` on ticks
`1 .. p-1`, `true` exactly on tick `p`, and `false` on every later tick
(`runResult … (j+1) = decide (j+1 = p)`); moreover a second consecutive
check right after the expiry was consumed returns `false`, so each expiry
is reported exactly once. -/
theorem C1_oneShot_expiry (b : Bank) (id p : Nat) (b0 : Bank)
    (hp : 0 < p) (hstart : bsp_StartTimer id p b = some b0) :
    (∀ j, runResult id b0 (j + 1) = decide (j + 1 = p))
  ∧ (bsp_CheckTimer id (runState id b0 p)).1 = false := by
  obtain ⟨hid, hb0⟩ := startTimer_some id p b b0 hstart
  subst hb0
  obtain ⟨hstate, hres⟩ := armed_run b id ⟨p, p, false, TMR_ONCE_MODE⟩ hid
  constructor
  · intro j
    rw [hres (j + 1)]
    simp only [Nat.add_sub_cancel]
    rw [slotRun_once p j, slotTick_once]
    rcases Nat.decEq (j + 1) p with h | h
    · have hne : ¬(p - j = 1) := by omega
      simp [h, hne]
    · have heq : p - j = 1 := by omega
      simp [h, heq]
  · have hlen : id < (runState id (b.set id ⟨p, p, false, TMR_ONCE_MODE⟩) p).length := by
      rw [runState_length]
      simpa [List.length_set] using hid
    rw [checkTimer_fst id _ hlen, hstate p, slotRun_once]

/-- Witness for C1 at `TMR_COUNT = 4`, `id = 0`, `p = 3`: with a check after
every tick, tick 2 reports `false`, tick 3 reports `true`, tick 4 reports
`false`, and a second back-to-back check right after the consumed expiry
also reports `false`. -/
theorem C1_oneShot_expiry_witness :
    (runResult 0 ((SysTickTimer_Init 4).set 0 ⟨3, 3, false, TMR_ONCE_MODE⟩) 2 = false
     ∧ runResult 0 ((SysTickTimer_Init 4).set 0 ⟨3, 3, false, TMR_ONCE_MODE⟩) 3 = true
     ∧ runResult 0 ((SysTickTimer_Init 4).set 0 ⟨3, 3, false, TMR_ONCE_MODE⟩) 4 = false)
  ∧ (bsp_CheckTimer 0 (runState 0 ((SysTickTimer_Init 4).set 0 ⟨3, 3, false, TMR_ONCE_MODE⟩) 3)).1 = false := by
  have h := C1_oneShot_expiry (SysTickTimer_Init 4) 0 3
    ((SysTickTimer_Init 4).set 0 ⟨3, 3, false, TMR_ONCE_MODE⟩) (by decide) (by decide)
  refine ⟨⟨?_, ?_, ?_⟩, h.2⟩
  · simpa using h.1 1
  · simpa using h.1 2
  · simpa using h.1 3

/-- C2.  Auto-reload periodicity: after `bsp_StartAutoTimer id p` (`p > 0`),
querying after every tick yields `true` exactly on the ticks that are
multiples of `p`, indefinitely; and the slot state after `k` ticks is
`⟨p - k % p, p, false, TMR_AUTO_MODE⟩`, so on each expiring tick
(`k % p = 0`) `Count` has been reloaded from `PreLoad` back to `p` in that
same tick. -/
theorem C2_autoReload_periodic (b : Bank) (id p : Nat) (b0 : Bank)
    (hp : 0 < p) (hstart : bsp_StartAutoTimer id p b = some b0) :
    (∀ j, runResult id b0 (j + 1) = decide ((j + 1) % p = 0))
  ∧ (∀ k, slotOf id (runState id b0 k) = ⟨p - k % p, p, false, TMR_AUTO_MODE⟩) := by
  obtain ⟨hid, hb0⟩ := startAutoTimer_some id p b b0 hstart
  subst hb0
  obtain ⟨hstate, hres⟩ := armed_run b id ⟨p, p, false, TMR_AUTO_MODE⟩ hid
  constructor
  · intro j
    rw [hres (j + 1)]
    simp only [Nat.add_sub_cancel]
    rw [slotRun_auto p hp j,
        slotTick_auto _ p (by have := Nat.mod_lt j hp; omega)]
    have hmod : (j % p + 1) % p = (j + 1) % p := Nat.mod_add_mod j p 1
    rcases Nat.decEq (p - j % p) 1 with h | h
    · have hne : ¬((j + 1) % p = 0) := by
        have hlt : j % p < p := Nat.mod_lt j hp
        have : j % p + 1 < p := by omega
        rw [← hmod, Nat.mod_eq_of_lt this]
        omega
      simp [h, hne]
    · have hj : j % p = p - 1 := by have := Nat.mod_lt j hp; omega
      have hz : (j + 1) % p = 0 := by
        rw [← hmod, hj]
        have : p - 1 + 1 = p := by omega
        simp [this]
      simp [h, hz]
  · intro k
    rw [hstate k, slotRun_auto p hp k]

/-- Witness for C2 at `TMR_COUNT = 4`, `id = 1`, `p = 2`: ticks 2 and 4
report `true`, ticks 1 and 3 report `false`, and after ticks 2 and 4 the
slot reads `⟨2, 2, false, TMR_AUTO_MODE⟩` — `Count` reloaded to `p`. -/
theorem C2_autoReload_periodic_witness :
    (runResult 1 ((SysTickTimer_Init 4).set 1 ⟨2, 2, false, TMR_AUTO_MODE⟩) 1 = false
     ∧ runResult 1 ((SysTickTimer_Init 4).set 1 ⟨2, 2, false, TMR_AUTO_MODE⟩) 2 = true
     ∧ runResult 1 ((SysTickTimer_Init 4).set 1 ⟨2, 2, false, TMR_AUTO_MODE⟩) 3 = false
     ∧ runResult 1 ((SysTickTimer_Init 4).set 1 ⟨2, 2, false, TMR_AUTO_MODE⟩) 4 = true)
  ∧ slotOf 1 (runState 1 ((SysTickTimer_Init 4).set 1 ⟨2, 2, false, TMR_AUTO_MODE⟩) 4)
      = ⟨2, 2, false, TMR_AUTO_MODE⟩ := by
  have h := C2_autoReload_periodic (SysTickTimer_Init 4) 1 2
    ((SysTickTimer_Init 4).set 1 ⟨2, 2, false, TMR_AUTO_MODE⟩) (by decide) (by decide)
  refine ⟨⟨?_, ?_, ?_, ?_⟩, ?_⟩
  · simpa using h.1 0
  · simpa using h.1 1
  · simpa using h.1 2
  · simpa using h.1 3
  · simpa using h.2 4

/-- C8.  `bsp_StopTimer` disarms: after a successful stop, slot `id` holds
`Count = 0`, `Flag = false`, `Mode = TMR_ONCE_MODE` (its `PreLoad` kept),
and with a `bsp_CheckTimer id` query after every subsequent tick, every
query returns `false`, for any number of ticks. -/
theorem C8_stop_disarms (b : Bank) (id : Nat) (b0 : Bank)
    (hstop : bsp_StopTimer id b = some b0) :
    slotOf id b0 = { slotOf id b with Count := 0, Flag := false, Mode := TMR_ONCE_MODE }
  ∧ (∀ j, runResult id b0 j = false) := by
  obtain ⟨hid, hb0⟩ := stopTimer_some id b b0 hstop
  subst hb0
  obtain ⟨hstate, hres⟩ :=
    armed_run b id { slotOf id b with Count := 0, Flag := false, Mode := TMR_ONCE_MODE } hid
  refine ⟨slotOf_set_self b id _ hid, ?_⟩
  intro j
  rw [hres j, slotRun_inert _ rfl rfl, slotTick_inert _ rfl rfl]

/-- Witness for C8 at `TMR_COUNT = 4`, `id = 2`, stopping a slot armed with
period 5: the stopped slot reads `⟨0, 5, false, TMR_ONCE_MODE⟩` and the
checks after ticks 1 and 7 both report `false`. -/
theorem C8_stop_disarms_witness :
    slotOf 2 ((SysTickTimer_Init 4).set 2 ⟨5, 5, true, TMR_ONCE_MODE⟩
        |>.set 2 ⟨0, 5, false, TMR_ONCE_MODE⟩) = ⟨0, 5, false, TMR_ONCE_MODE⟩
  ∧ (runResult 2 ((SysTickTimer_Init 4).set 2 ⟨5, 5, true, TMR_ONCE_MODE⟩
        |>.set 2 ⟨0, 5, false, TMR_ONCE_MODE⟩) 1 = false
     ∧ runResult 2 ((SysTickTimer_Init 4).set 2 ⟨5, 5, true, TMR_ONCE_MODE⟩
        |>.set 2 ⟨0, 5, false, TMR_ONCE_MODE⟩) 7 = false) := by
  have h := C8_stop_disarms ((SysTickTimer_Init 4).set 2 ⟨5, 5, true, TMR_ONCE_MODE⟩)
    2 ((SysTickTimer_Init 4).set 2 ⟨5, 5, true, TMR_ONCE_MODE⟩
        |>.set 2 ⟨0, 5, false, TMR_ONCE_MODE⟩) (by decide)
  exact ⟨by simpa using h.1, h.2 1, h.2 7⟩

/-- C9.  Out-of-range identifier policy: for any `id ≥ TMR_COUNT`, the arm
operations `bsp_StartTimer` / `bsp_StartAutoTimer` and the stop operation
`bsp_StopTimer` never return and modify no slot (the `while(1);` halt,
modelled as `none`), while the read-only `bsp_CheckTimer` is lenient: it
returns `false` ("not expired") and leaves the bank unchanged. -/
theorem C9_outOfRange_policy (b : Bank) (id p : Nat) (hid : b.length ≤ id) :
    bsp_StartTimer id p b = none
  ∧ bsp_StartAutoTimer id p b = none
  ∧ bsp_StopTimer id b = none
  ∧ bsp_CheckTimer id b = (false, b) := by
  refine ⟨?_, ?_, ?_, ?_⟩ <;>
    simp [bsp_StartTimer, bsp_StartAutoTimer, bsp_StopTimer, bsp_CheckTimer, hid]

/-- Witness for C9 at `TMR_COUNT = 4`, `id = 4` (first out-of-range id),
`p = 100`: both arms and the stop halt (`none`), the check returns
`(false, bank unchanged)`. -/
theorem C9_outOfRange_policy_witness :
    bsp_StartTimer 4 100 (SysTickTimer_Init 4) = none
  ∧ bsp_StartAutoTimer 4 100 (SysTickTimer_Init 4) = none
  ∧ bsp_StopTimer 4 (SysTickTimer_Init 4) = none
  ∧ bsp_CheckTimer 4 (SysTickTimer_Init 4) = (false, SysTickTimer_Init 4) :=
  C9_outOfRange_policy (SysTickTimer_Init 4) 4 100 (by decide)

/-- C10.  Arming with period 0 leaves the slot inert: after
`bsp_StartTimer id 0` or `bsp_StartAutoTimer id 0`, the slot stays
`⟨0, 0, false, mode⟩` after every tick (the per-tick decrement never fires,
`Count` and `Flag` stay 0) and every per-tick `bsp_CheckTimer id` query
returns `false` — auto-reload mode included. -/
theorem C10_period_zero_inert (b : Bank) (id : Nat) (b1 b2 : Bank)
    (h1 : bsp_StartTimer id 0 b = some b1)
    (h2 : bsp_StartAutoTimer id 0 b = some b2) :
    (∀ k, slotOf id (runState id b1 k) = ⟨0, 0, false, TMR_ONCE_MODE⟩
          ∧ runResult id b1 k = false)
  ∧ (∀ k, slotOf id (runState id b2 k) = ⟨0, 0, false, TMR_AUTO_MODE⟩
          ∧ runResult id b2 k = false) := by
  obtain ⟨hid1, hb1⟩ := startTimer_some id 0 b b1 h1
  obtain ⟨hid2, hb2⟩ := startAutoTimer_some id 0 b b2 h2
  subst hb1; subst hb2
  obtain ⟨hstate1, hres1⟩ := armed_run b id ⟨0, 0, false, TMR_ONCE_MODE⟩ hid1
  obtain ⟨hstate2, hres2⟩ := armed_run b id ⟨0, 0, false, TMR_AUTO_MODE⟩ hid2
  constructor
  · intro k
    constructor
    · rw [hstate1 k, slotRun_inert _ rfl rfl]
    · rw [hres1 k, slotRun_inert _ rfl rfl, slotTick_inert _ rfl rfl]
  · intro k
    constructor
    · rw [hstate2 k, slotRun_inert _ rfl rfl]
    · rw [hres2 k, slotRun_inert _ rfl rfl, slotTick_inert _ rfl rfl]

/-- Witness for C10 at `TMR_COUNT = 4`, `id = 3`, period 0: after 6 ticks
the one-shot-armed and auto-armed slots both still read `⟨0, 0, false, _⟩`
and the tick-6 checks report `false`. -/
theorem C10_period_zero_inert_witness :
    (slotOf 3 (runState 3 ((SysTickTimer_Init 4).set 3 ⟨0, 0, false, TMR_ONCE_MODE⟩) 6)
        = ⟨0, 0, false, TMR_ONCE_MODE⟩
     ∧ runResult 3 ((SysTickTimer_Init 4).set 3 ⟨0, 0, false, TMR_ONCE_MODE⟩) 6 = false)
  ∧ (slotOf 3 (runState 3 ((SysTickTimer_Init 4).set 3 ⟨0, 0, false, TMR_AUTO_MODE⟩) 6)
        = ⟨0, 0, false, TMR_AUTO_MODE⟩
     ∧ runResult 3 ((SysTickTimer_Init 4).set 3 ⟨0, 0, false, TMR_AUTO_MODE⟩) 6 = false) := by
  have h := C10_period_zero_inert (SysTickTimer_Init 4) 3
    ((SysTickTimer_Init 4).set 3 ⟨0, 0, false, TMR_ONCE_MODE⟩)
    ((SysTickTimer_Init 4).set 3 ⟨0, 0, false, TMR_AUTO_MODE⟩) (by decide) (by decide)
  exact ⟨h.1 6, h.2 6⟩

/- ---------------------------------------------------------------------
Run-time clock (`g_iRunTime`, `SysTick_ISR` step 3, `bsp_CheckRunTime`).
--------------------------------------------------------------------- -/

/-- The run-time clock advance of `SysTick_ISR`: `g_iRunTime++` followed by
the explicit wrap `if (g_iRunTime == 0x7FFFFFFF) g_iRunTime = 0;`. -/
def advanceRunTime (r : Int) : Int :=
  if r + 1 = 0x7FFFFFFF then 0 else r + 1

/-- `g_iRunTime` after `t` ticks, starting from its initialiser 0. -/
def runTimeAfter (t : Nat) : Int := advanceRunTime^[t] 0

/-- Closed form of the clock: period `0x7FFFFFFF`, values `0 .. 0x7FFFFFFE`. -/
lemma runTimeAfter_mod : ∀ t : Nat, runTimeAfter t = ((t % 0x7FFFFFFF : Nat) : Int)
  | 0 => by simp [runTimeAfter]
  | t + 1 => by
    have ih := runTimeAfter_mod t
    have hstep : runTimeAfter (t + 1) = advanceRunTime (runTimeAfter t) :=
      Function.iterate_succ_apply' advanceRunTime t 0
    rw [hstep, ih]
    unfold advanceRunTime
    have hmod : (t % 0x7FFFFFFF + 1) % 0x7FFFFFFF = (t + 1) % 0x7FFFFFFF :=
      Nat.mod_add_mod t 0x7FFFFFFF 1
    by_cases h : t % 0x7FFFFFFF = 0x7FFFFFFE
    · have h1 : ((t % 0x7FFFFFFF : Nat) : Int) + 1 = 0x7FFFFFFF := by
        rw [h]; norm_num
      have h2 : (t + 1) % 0x7FFFFFFF = 0 := by
        rw [← hmod, h]
      rw [if_pos h1, h2]
      norm_num
    · have hlt : t % 0x7FFFFFFF < 0x7FFFFFFF := Nat.mod_lt t (by norm_num)
      have h1 : ¬(((t % 0x7FFFFFFF : Nat) : Int) + 1 = 0x7FFFFFFF) := by
        intro hc
        have : t % 0x7FFFFFFF = 0x7FFFFFFE := by exact_mod_cast
          (by linarith : ((t % 0x7FFFFFFF : Nat) : Int) = 0x7FFFFFFE)
        exact h this
      have h2 : (t + 1) % 0x7FFFFFFF = t % 0x7FFFFFFF + 1 := by
        rw [← hmod]
        exact Nat.mod_eq_of_lt (by omega)
      rw [if_neg h1, h2]
      push_cast
      ring

/-- C4 counterexample.  The claim says that, starting from 0, after `MAX`
ticks the clock reads `MAX - 1` (with `MAX = 0x7FFFFFFF`, the explicit wrap
sentinel of `SysTick_ISR`).  In fact after `0x7FFFFFFF` ticks the clock has
already wrapped and reads 0, not `0x7FFFFFFE`; it is after `MAX - 1` ticks
that it reads `MAX - 1`. -/
theorem C4_cex_after_MAX_ticks :
    runTimeAfter 0x7FFFFFFF = 0 ∧ ¬(runTimeAfter 0x7FFFFFFF = 0x7FFFFFFE) := by
  have h : runTimeAfter 0x7FFFFFFF = ((0x7FFFFFFF % 0x7FFFFFFF : Nat) : Int) :=
    runTimeAfter_mod 0x7FFFFFFF
  rw [Nat.mod_self] at h
  exact ⟨h, by rw [h]; norm_num⟩

/-- C4 as amended.  The run-time clock starts at 0 and is incremented by
exactly 1 per tick, wrapping to 0 when the incremented value reaches the
explicit sentinel `MAX = 0x7FFFFFFF` (the storage's own maximum, checked by
comparison rather than left to overflow): after `t` ticks it reads
`t % MAX`, so after `MAX - 1` ticks it reads `MAX - 1`, it wraps to 0 on
the very next tick (`MAX` ticks), it never skips or repeats a value within
a period, and `MAX` itself is never an observable value of the clock. -/
theorem C4_runTime_wrap_amended : ∀ t : Nat,
    runTimeAfter t = ((t % 0x7FFFFFFF : Nat) : Int)
  ∧ runTimeAfter 0x7FFFFFFE = 0x7FFFFFFE
  ∧ runTimeAfter 0x7FFFFFFF = 0
  ∧ ¬(runTimeAfter t = 0x7FFFFFFF) := by
  intro t
  have hm : ∀ s : Nat, runTimeAfter s = ((s % 0x7FFFFFFF : Nat) : Int) :=
    runTimeAfter_mod
  refine ⟨hm t, ?_, ?_, ?_⟩
  · rw [hm 0x7FFFFFFE, Nat.mod_eq_of_lt (by norm_num)]
    norm_num
  · rw [hm 0x7FFFFFFF, Nat.mod_self]
    norm_num
  · rw [hm t]
    intro hc
    have hlt : t % 0x7FFFFFFF < 0x7FFFFFFF := Nat.mod_lt t (by norm_num)
    have : t % 0x7FFFFFFF = 0x7FFFFFFF := by exact_mod_cast hc
    omega

/-- `bsp_CheckRunTime`: wrap-aware elapsed time.  `now_time` is the sampled
`g_iRunTime` (read under a critical section in the C code); the function
returns `now - last` when `now >= last`, else `0x7FFFFFFF - last + now`. -/
def bsp_CheckRunTime (now_time _LastTime : Int) : Int :=
  if now_time ≥ _LastTime then now_time - _LastTime
  else 0x7FFFFFFF - _LastTime + now_time

/-- Modelled from the spec: the generic `elapsed_since` formula of §4.3,
`now() - last` if `now() >= last`, else `SENTINEL - last + now()`, with the
sentinel left as a parameter (the spec's concrete example instantiates
`SENTINEL = 20`; the code fixes it to `0x7FFFFFFF`). -/
def elapsedSpec (sentinel lastv nowv : Int) : Int :=
  if nowv ≥ lastv then nowv - lastv else sentinel - lastv + nowv

/-- C5.  `bsp_CheckRunTime` computes exactly the spec's `elapsed_since`
formula at `SENTINEL = 0x7FFFFFFF`: `now - last` when `now ≥ last`, else
`SENTINEL - last + now` (one wrap); the spec's concrete instances hold:
at `SENTINEL = 20` the formula gives `elapsed(last 10, now 5) = 15`, and
the code gives `bsp_CheckRunTime (now 15) (last 10) = 5`. -/
theorem C5_checkRunTime_elapsed :
    (∀ nowv lastv : Int, bsp_CheckRunTime nowv lastv = elapsedSpec 0x7FFFFFFF lastv nowv)
  ∧ (∀ nowv lastv : Int, nowv ≥ lastv → bsp_CheckRunTime nowv lastv = nowv - lastv)
  ∧ (∀ nowv lastv : Int, nowv < lastv →
      bsp_CheckRunTime nowv lastv = 0x7FFFFFFF - lastv + nowv)
  ∧ elapsedSpec 20 10 5 = 15
  ∧ bsp_CheckRunTime 15 10 = 5 := by
  refine ⟨fun nowv lastv => rfl, ?_, ?_, by norm_num [elapsedSpec], by norm_num [bsp_CheckRunTime]⟩
  · intro nowv lastv h
    simp [bsp_CheckRunTime, h]
  · intro nowv lastv h
    simp [bsp_CheckRunTime, not_le.mpr h, le_of_lt h]

/- ---------------------------------------------------------------------
Blocking millisecond delay (`s_uiDelayCount` / `s_ucTimeOutFlag`,
`bsp_DelayMS`, `SysTick_ISR` step 1).
--------------------------------------------------------------------- -/

/-- The two statics shared by `bsp_DelayMS` and `SysTick_ISR`:
`s_uiDelayCount` and `s_ucTimeOutFlag`. -/
structure DelayState where
  uiDelayCount : Nat
  ucTimeOutFlag : Bool
deriving DecidableEq, Repr

/-- Step 1 of `SysTick_ISR`: if `s_uiDelayCount > 0` decrement it, and on
reaching 0 set `s_ucTimeOutFlag`. -/
def delayTick (d : DelayState) : DelayState :=
  if d.uiDelayCount > 0 then
    let c := d.uiDelayCount - 1
    ⟨c, if c = 0 then true else d.ucTimeOutFlag⟩
  else d

/-- The arming prologue of `bsp_DelayMS`: `n = 0` returns at once leaving
the delay state untouched; `n = 1` is promoted to 2; otherwise the
countdown is armed with `s_uiDelayCount = n`, `s_ucTimeOutFlag = 0`.
(The busy-poll that follows exits exactly when `ucTimeOutFlag` is set.) -/
def bsp_DelayMS_arm (n : Nat) (d : DelayState) : DelayState :=
  if n = 0 then d
  else if n = 1 then ⟨2, false⟩
  else ⟨n, false⟩

lemma delayTick_armed (n : Nat) (hn : 0 < n) :
    ∀ k, delayTick^[k] ⟨n, false⟩ =
      if k < n then ⟨n - k, false⟩ else ⟨0, true⟩
  | 0 => by rw [Function.iterate_zero_apply, if_pos hn]; simp
  | k + 1 => by
    rw [Function.iterate_succ_apply', delayTick_armed n hn k]
    by_cases hk : k < n
    · rw [if_pos hk]
      unfold delayTick
      by_cases hk1 : k + 1 < n
      · have h1 : n - k > 0 := by omega
        have h2 : ¬(n - k - 1 = 0) := by omega
        have h3 : n - k - 1 = n - (k + 1) := by omega
        have h4 : ¬(n - (k + 1) = 0) := by omega
        simp [h1, h2, h3, h4, hk1]
      · have he : n - k = 1 := by omega
        simp [he, hk1]
    · rw [if_neg hk, if_neg (by omega)]
      rfl

/-- C6.  `bsp_DelayMS`: with `n = 0` the call is a no-op (the delay state
is not armed and the polling loop is never entered — zero ticks consumed);
`n = 1` is promoted to 2, arming exactly as `bsp_DelayMS 2` does, so both
take the same number of ticks; for `n ≥ 2` the countdown is armed with
`remaining = n`, `expired = false`, and the expiry flag the poll waits for
is set exactly from the `n`-th tick on (`flag after k ticks ↔ n ≤ k`),
so the call returns only once the handler has counted the armed value down
to 0. -/
theorem C6_delayMS (d : DelayState) (n : Nat) (hn : 2 ≤ n) :
    bsp_DelayMS_arm 0 d = d
  ∧ bsp_DelayMS_arm 1 d = bsp_DelayMS_arm 2 d
  ∧ bsp_DelayMS_arm n d = ⟨n, false⟩
  ∧ (∀ k, (delayTick^[k] (bsp_DelayMS_arm n d)).ucTimeOutFlag = decide (n ≤ k))
  ∧ (∀ k, (delayTick^[k] (bsp_DelayMS_arm 1 d)).ucTimeOutFlag = decide (2 ≤ k)) := by
  have harm : bsp_DelayMS_arm n d = ⟨n, false⟩ := by
    unfold bsp_DelayMS_arm
    rw [if_neg (by omega), if_neg (by omega)]
  refine ⟨rfl, rfl, harm, ?_, ?_⟩
  · intro k
    rw [harm, delayTick_armed n (by omega) k]
    by_cases hk : k < n
    · rw [if_pos hk]; simp [show ¬(n ≤ k) by omega]
    · rw [if_neg hk]; simp [show n ≤ k by omega]
  · intro k
    show (delayTick^[k] ⟨2, false⟩).ucTimeOutFlag = decide (2 ≤ k)
    rw [delayTick_armed 2 (by omega) k]
    by_cases hk : k < 2
    · rw [if_pos hk]; simp [show ¬(2 ≤ k) by omega]
    · rw [if_neg hk]; simp [show 2 ≤ k by omega]

/-- Witness for C6 at `n = 5`, starting from an idle delay state: `n = 0`
and the `1 ↦ 2` promotion behave as stated, the armed state is
`⟨5, false⟩`, the flag is still clear after 4 ticks and set after 5, and
`bsp_DelayMS 1` completes exactly at tick 2. -/
theorem C6_delayMS_witness :
    bsp_DelayMS_arm 0 ⟨0, false⟩ = ⟨0, false⟩
  ∧ bsp_DelayMS_arm 1 ⟨0, false⟩ = bsp_DelayMS_arm 2 ⟨0, false⟩
  ∧ bsp_DelayMS_arm 5 ⟨0, false⟩ = ⟨5, false⟩
  ∧ (delayTick^[4] (bsp_DelayMS_arm 5 ⟨0, false⟩)).ucTimeOutFlag = false
  ∧ (delayTick^[5] (bsp_DelayMS_arm 5 ⟨0, false⟩)).ucTimeOutFlag = true
  ∧ (delayTick^[2] (bsp_DelayMS_arm 1 ⟨0, false⟩)).ucTimeOutFlag = true := by
  have h := C6_delayMS ⟨0, false⟩ 5 (by decide)
  refine ⟨h.1, h.2.1, h.2.2.1, ?_, ?_, ?_⟩
  · simpa using h.2.2.2.1 4
  · simpa using h.2.2.2.1 5
  · simpa using h.2.2.2.2 2

/- ---------------------------------------------------------------------
Microsecond busy-wait (`bsp_DelayUS`).
--------------------------------------------------------------------- -/

/-- The polling loop of `bsp_DelayUS` over a finite trace of successive
`SysTick->VAL` samples.  `reload` is `SysTick->LOAD`, `ticks` the target,
`told` the previous sample, `tcnt` the accumulator.  A sample equal to the
previous one is skipped; otherwise the counter's decrease is accumulated —
`told - tnow` when the new sample is smaller, `reload - tnow + told` (in
the C code's `uint32_t` arithmetic, written out `% 2^32`) when it is
greater because the down-counter reloaded — and the loop breaks, returning
the accumulated count, as soon as `tcnt >= ticks`.  `none` means the trace
ended before the target was reached (the real loop would keep polling). -/
def bsp_DelayUS_loop (reload ticks : Nat) (told tcnt : Nat) :
    List Nat → Option Nat
  | [] => none
  | tnow :: rest =>
    if tnow = told then bsp_DelayUS_loop reload ticks told tcnt rest
    else
      let tcnt1 :=
        if tnow < told then (tcnt + (told - tnow)) % 2 ^ 32
        else (tcnt + ((reload + 2 ^ 32 - tnow) % 2 ^ 32 + told) % 2 ^ 32) % 2 ^ 32
      if ticks ≤ tcnt1 then some tcnt1
      else bsp_DelayUS_loop reload ticks tnow tcnt1 rest

/-- `bsp_DelayUS n`: the target is `n * (SystemCoreClock / 1000000)`
hardware ticks; the accumulator starts at 0 from the entry sample `told`. -/
def bsp_DelayUS (systemCoreClock reload n told : Nat) (samples : List Nat) : Option Nat :=
  bsp_DelayUS_loop reload (n * (systemCoreClock / 1000000)) told 0 samples

lemma delayUS_loop_not_early (reload ticks : Nat) :
    ∀ (samples : List Nat) (told tcnt r : Nat),
      bsp_DelayUS_loop reload ticks told tcnt samples = some r → ticks ≤ r
  | [], _, _, _, h => by simp [bsp_DelayUS_loop] at h
  | tnow :: rest, told, tcnt, r, h => by
    unfold bsp_DelayUS_loop at h
    by_cases he : tnow = told
    · rw [if_pos he] at h
      exact delayUS_loop_not_early reload ticks rest told tcnt r h
    · rw [if_neg he] at h
      set tcnt1 :=
        if tnow < told then (tcnt + (told - tnow)) % 2 ^ 32
        else (tcnt + ((reload + 2 ^ 32 - tnow) % 2 ^ 32 + told) % 2 ^ 32) % 2 ^ 32 with hdef
      by_cases hge : ticks ≤ tcnt1
      · rw [if_pos hge] at h
        simp only [Option.some.injEq] at h
        exact h ▸ hge
      · rw [if_neg hge] at h
        exact delayUS_loop_not_early reload ticks rest tnow tcnt1 r h

/-- C7.  `bsp_DelayUS` never returns early: whenever the polling loop
returns, the accumulated count has reached or exceeded the target of
`n * (SystemCoreClock / 1000000)` hardware ticks.  Concretely, with
`reload = 9`, a 1 MHz clock (1 tick per µs) and target `n = 7`: entering
at `told = 5` and sampling `8` — the counter wrapped, so `reload − 8 + 5
= 6` is accumulated, not a negative plain difference — the loop does
*not* yet return (6 < 7, no early return even across the wrap); the next
sample `6` adds `8 − 6 = 2` and the loop returns `8 ≥ 7`. -/
theorem C7_delayUS_wrap_accumulation :
    (∀ systemCoreClock reload n told r : Nat, ∀ samples : List Nat,
      bsp_DelayUS systemCoreClock reload n told samples = some r →
        n * (systemCoreClock / 1000000) ≤ r)
  ∧ bsp_DelayUS 1000000 9 7 5 [8] = none
  ∧ bsp_DelayUS 1000000 9 7 5 [8, 6] = some 8 := by
  refine ⟨?_, by decide, by decide⟩
  intro systemCoreClock reload n told r samples h
  exact delayUS_loop_not_early reload _ samples told 0 r h

/- ---------------------------------------------------------------------
`SysTick_ISR`: the whole tick interrupt, with a trace of the outbound
hook calls and of the core state each hook observes.
--------------------------------------------------------------------- -/

/-- All core state the tick interrupt touches: the blocking-delay pair,
the timer bank, `g_iRunTime`, and the static sub-counter `s_count` of
`SysTick_ISR`. -/
structure SysState where
  delay : DelayState
  tmr : Bank
  iRunTime : Int
  sCount : Nat
deriving DecidableEq, Repr

/-- The three outbound hooks the tick interrupt invokes: `bsp_RunPer1ms`,
`bsp_RunPer10ms`, and the task-bookkeeping call `TPCRemarks(TaskComps)`. -/
inductive Hook where
  | per1ms : Hook
  | per10ms : Hook
  | taskRemarks : Hook
deriving DecidableEq, Repr

/-- `SysTick_ISR`, step for step: (1) blocking-delay countdown
(`delayTick`), (2) `bsp_SoftTimerDec` over every slot (`bankDec`),
(3) run-time clock advance with its explicit wrap (`advanceRunTime`),
(4) `bsp_RunPer1ms()`, (5) `++s_count >= 10` → reset `s_count` and call
`bsp_RunPer10ms()` (`s_count` is a `uint8_t`, hence the `% 256`),
(6) `TPCRemarks(TaskComps)` last.  The hooks are external collaborators:
the trace records, in call order, which hook runs and the core state it
observes at its call site. -/
def SysTick_ISR (st : SysState) : SysState × List (Hook × SysState) :=
  let st1 : SysState := { st with delay := delayTick st.delay }
  let st2 : SysState := { st1 with tmr := bankDec st1.tmr }
  let st3 : SysState := { st2 with iRunTime := advanceRunTime st2.iRunTime }
  let c := (st3.sCount + 1) % 256
  if 10 ≤ c then
    let st4 : SysState := { st3 with sCount := 0 }
    (st4, [(Hook.per1ms, st3), (Hook.per10ms, st4), (Hook.taskRemarks, st4)])
  else
    let st4 : SysState := { st3 with sCount := c }
    (st4, [(Hook.per1ms, st3), (Hook.taskRemarks, st4)])

/-- C3.  On every invocation of `SysTick_ISR` the hooks run in the
contractual order — `bsp_RunPer1ms` first, then (only when the sub-count
`++s_count` reaches 10, in which case `s_count` is reset to 0)
`bsp_RunPer10ms`, then `TPCRemarks` last — and every hook observes the
*same-tick* updated core: the delay countdown already decremented
(`delayTick`, step 1), every timer slot already decremented (`bankDec`,
step 2) and the run-time clock already advanced (`advanceRunTime`,
step 3), never the previous tick's values. -/
theorem C3_isr_order_and_visibility (st : SysState) :
    ((SysTick_ISR st).2.map Prod.fst =
      if 10 ≤ (st.sCount + 1) % 256 then [Hook.per1ms, Hook.per10ms, Hook.taskRemarks]
      else [Hook.per1ms, Hook.taskRemarks])
  ∧ ((SysTick_ISR st).2.all fun ob =>
      decide (ob.2.delay = delayTick st.delay
        ∧ ob.2.tmr = bankDec st.tmr
        ∧ ob.2.iRunTime = advanceRunTime st.iRunTime)) = true
  ∧ (SysTick_ISR st).1.sCount =
      (if 10 ≤ (st.sCount + 1) % 256 then 0 else (st.sCount + 1) % 256)
  ∧ (SysTick_ISR st).1 =
      { st with delay := delayTick st.delay, tmr := bankDec st.tmr,
                iRunTime := advanceRunTime st.iRunTime,
                sCount := if 10 ≤ (st.sCount + 1) % 256 then 0
                          else (st.sCount + 1) % 256 } := by
  unfold SysTick_ISR
  by_cases hc : 10 ≤ (st.sCount + 1) % 256 <;>
    simp [hc]
